import Mathlib

/-
Verification of the bulkmt multithreaded batch command processor
(src/bulkmt.cpp) against its natural-language specification.

The synchronous main-thread pipeline built by RunBulk (a ConsoleInput whose
dependent is a BatchCommandProcessor whose dependents are the enqueue sides
of the two ThreadedCommandProcessor instances, "file" and "log") is embedded
as a state-transition function on PipeState.  C++ timestamps are modelled as
natural numbers handed to ProcessLine by the driver, one tick per line.

The C++ member mCounters is declared thread_local static in
CommandProcessor, so every processor object running on a given thread
shares a single Counters record; the embedding therefore keeps one
counters field for the whole main-thread pipeline, exactly as the source
does.  Counter arithmetic uses Int for the C++ int fields.
-/

structure Command where
  mText : String
  mTimestamp : Nat
  deriving DecidableEq

structure CommandBatch where
  mCommands : List Command
  mTimestamp : Nat
  deriving DecidableEq

/-- CommandBatch::Size. -/
def CommandBatch.Size (b : CommandBatch) : Nat := b.mCommands.length

structure Counters where
  mLineCounter : Int
  mBlockCounter : Int
  mCommandCounter : Int
  deriving DecidableEq

/-- Instrumentation tag recording which call site of
BatchCommandProcessor::DumpBatch produced a dispatched batch. -/
inductive Trigger where
  | sizeT
  | startT
  | finishT
  | stopT
  deriving DecidableEq

/-- State of the main-thread pipeline built by RunBulk: ConsoleInput's
mBlockDepth, the BatchCommandProcessor's mBulkSize, mBlockForced and
mCommandBatch, the thread-shared Counters, and for each of the two
ThreadedCommandProcessor dependents its mDone flag and mQueue.  The
dispatched list records every batch passed to the accumulator's
CommandProcessor::ProcessBatch, tagged with its trigger. -/
structure PipeState where
  blockDepth : Int
  bulkSize : Nat
  blockForced : Bool
  mCommandBatch : List Command
  counters : Counters
  fileDone : Bool
  fileQueue : List CommandBatch
  logDone : Bool
  logQueue : List CommandBatch
  dispatched : List (Trigger × CommandBatch)
  deriving DecidableEq

/-- Counter update performed by CommandProcessor::ProcessBatch
(one block, Size commands). -/
def Counters.addBatch (c : Counters) (sz : Nat) : Counters :=
  { c with mBlockCounter := c.mBlockCounter + 1,
           mCommandCounter := c.mCommandCounter + (sz : Int) }

/-- One execution of the increment in CommandProcessor::ProcessLine. -/
def incLine (s : PipeState) : PipeState :=
  { s with counters :=
      { s.counters with mLineCounter := s.counters.mLineCounter + 1 } }

/-- ThreadedCommandProcessor::ProcessBatch for the "file" dispatcher:
early return when mDone, otherwise push on the queue (notify_all has no
state effect here) and run CommandProcessor::ProcessBatch, which forwards
to no dependents and bumps the thread-shared counters. -/
def fileProcessBatch (s : PipeState) (b : CommandBatch) : PipeState :=
  if s.fileDone then s
  else { s with fileQueue := s.fileQueue ++ [b],
                counters := s.counters.addBatch b.Size }

/-- ThreadedCommandProcessor::ProcessBatch for the "log" dispatcher. -/
def logProcessBatch (s : PipeState) (b : CommandBatch) : PipeState :=
  if s.logDone then s
  else { s with logQueue := s.logQueue ++ [b],
                counters := s.counters.addBatch b.Size }

/-- CommandProcessor::ProcessBatch as executed by the accumulator object:
forward the batch to each dependent ThreadedCommandProcessor in order,
then increment the (thread-shared) counters; the dispatched list records
the call for the proofs. -/
def accProcessBatch (t : Trigger) (s : PipeState) (b : CommandBatch) : PipeState :=
  let s1 := logProcessBatch (fileProcessBatch s b) b
  { s1 with counters := s1.counters.addBatch b.Size,
            dispatched := s1.dispatched ++ [(t, b)] }

/-- Timestamp of the first pending command; the zero default is never used
because DumpBatch guards on the batch being non-empty. -/
def firstTs : List Command → Nat
  | [] => 0
  | c :: _ => c.mTimestamp

/-- BatchCommandProcessor::DumpBatch: no-op when mCommandBatch is empty;
otherwise build a CommandBatch from mCommandBatch with the first pending
command's timestamp, run CommandProcessor::ProcessBatch, and clear. -/
def dumpBatch (t : Trigger) (s : PipeState) : PipeState :=
  if s.mCommandBatch.isEmpty then s
  else
    let s1 := accProcessBatch t s ⟨s.mCommandBatch, firstTs s.mCommandBatch⟩
    { s1 with mCommandBatch := [] }

/-- BatchCommandProcessor::StartBlock: set mBlockForced, then DumpBatch. -/
def batchStartBlock (s : PipeState) : PipeState :=
  dumpBatch Trigger.startT { s with blockForced := true }

/-- BatchCommandProcessor::FinishBlock: clear mBlockForced, then DumpBatch. -/
def batchFinishBlock (s : PipeState) : PipeState :=
  dumpBatch Trigger.finishT { s with blockForced := false }

/-- BatchCommandProcessor::ProcessCommand: push_back the command, then
flush exactly when not mBlockForced and the batch has reached mBulkSize. -/
def batchProcessCommand (s : PipeState) (c : Command) : PipeState :=
  let s1 := { s with mCommandBatch := s.mCommandBatch ++ [c] }
  if s1.blockForced = false ∧ s1.bulkSize ≤ s1.mCommandBatch.length then
    dumpBatch Trigger.sizeT s1
  else s1

/-- CommandProcessor::StartBlock as executed by the ConsoleInput object:
forward StartBlock to the dependent BatchCommandProcessor, then increment
the (thread-shared) mBlockCounter. -/
def consoleStartBlock (s : PipeState) : PipeState :=
  let s1 := batchStartBlock s
  { s1 with counters :=
      { s1.counters with mBlockCounter := s1.counters.mBlockCounter + 1 } }

/-- CommandProcessor::FinishBlock as executed by the ConsoleInput object:
forward only; the base class does not touch counters here. -/
def consoleFinishBlock (s : PipeState) : PipeState :=
  batchFinishBlock s

/-- CommandProcessor::ProcessCommand as executed by the ConsoleInput
object: forward to the accumulator, then increment mCommandCounter. -/
def consoleProcessCommand (s : PipeState) (c : Command) : PipeState :=
  let s1 := batchProcessCommand s c
  { s1 with counters :=
      { s1.counters with mCommandCounter := s1.counters.mCommandCounter + 1 } }

/-- CommandProcessor::ProcessLine forwarding chain for the final call in
ConsoleInput::ProcessLine: the accumulator's base forwards to the two
dispatchers (each bumps the shared line counter), then the accumulator
and finally the ConsoleInput bump it too. -/
def consoleProcessLineBase (s : PipeState) : PipeState :=
  incLine (incLine (incLine (incLine s)))

/-- ConsoleInput::ProcessLine: an open-brace line increments mBlockDepth
and emits StartBlock whenever the new depth is positive; a close-brace
line decrements mBlockDepth and emits FinishBlock exactly when the new
depth is zero; any other line becomes a Command with the current
timestamp; finally CommandProcessor::ProcessLine runs unconditionally. -/
def consoleProcessLine (s : PipeState) (line : String) (now : Nat) : PipeState :=
  consoleProcessLineBase
    (if line = "\x7b" then
       let s1 := { s with blockDepth := s.blockDepth + 1 }
       if s1.blockDepth > 0 then consoleStartBlock s1 else s1
     else if line = "\x7d" then
       let s1 := { s with blockDepth := s.blockDepth - 1 }
       if s1.blockDepth = 0 then consoleFinishBlock s1 else s1
     else consoleProcessCommand s { mText := line, mTimestamp := now })

/-- ThreadedCommandProcessor::Stop for the "file" dispatcher, main-thread
effect: set mDone (joining the workers has no effect on this state). -/
def fileStop (s : PipeState) : PipeState := { s with fileDone := true }

/-- ThreadedCommandProcessor::Stop for the "log" dispatcher. -/
def logStop (s : PipeState) : PipeState := { s with logDone := true }

/-- BatchCommandProcessor::Stop: DumpBatch unless mBlockForced, then the
base class forwards Stop to both dispatchers. -/
def batchStop (s : PipeState) : PipeState :=
  let s1 := if s.blockForced = false then dumpBatch Trigger.stopT s else s
  logStop (fileStop s1)

/-- ConsoleInput::Stop (inherited CommandProcessor::Stop): DumpCounters,
then forward Stop to the dependent BatchCommandProcessor. -/
def consoleStop (s : PipeState) : PipeState := batchStop s

/-- Fresh pipeline as built by RunBulk for a given bulk size. -/
def initState (bulk : Nat) : PipeState :=
  { blockDepth := 0
    bulkSize := bulk
    blockForced := false
    mCommandBatch := []
    counters := ⟨0, 0, 0⟩
    fileDone := false
    fileQueue := []
    logDone := false
    logQueue := []
    dispatched := [] }

/-- Feed lines to ConsoleInput::ProcessLine, timestamping line k with k. -/
def runFrom (s : PipeState) (i : Nat) : List String → PipeState
  | [] => s
  | l :: ls => runFrom (consoleProcessLine s l i) (i + 1) ls

/-- The RunBulk read loop over a list of input lines. -/
def runLines (bulk : Nat) (ls : List String) : PipeState :=
  runFrom (initState bulk) 0 ls

/-- CommandProcessor::DumpCounters for the ConsoleInput node reads the
thread_local static mCounters of the main thread. -/
def consoleDumpCounters (s : PipeState) : Counters := s.counters

/-- CommandProcessor::DumpCounters for the BatchCommandProcessor node:
the same thread_local static record. -/
def batchDumpCounters (s : PipeState) : Counters := s.counters

/-- CommandProcessor::DumpCounters for the "file" dispatcher front object
on the main thread: again the same thread_local static record. -/
def fileDumpCounters (s : PipeState) : Counters := s.counters

/-- Pointwise order on counter records. -/
def Counters.le (a b : Counters) : Prop :=
  a.mLineCounter ≤ b.mLineCounter ∧
  a.mBlockCounter ≤ b.mBlockCounter ∧
  a.mCommandCounter ≤ b.mCommandCounter

def dispatchedCmds : List (Trigger × CommandBatch) → List Command
  | [] => []
  | tb :: rest => tb.2.mCommands ++ dispatchedCmds rest

def lineCmds (l : String) (i : Nat) : List Command :=
  if l = "\x7b" ∨ l = "\x7d" then [] else [⟨l, i⟩]

def inputCmds : Nat → List String → List Command
  | _, [] => []
  | i, l :: ls => lineCmds l i ++ inputCmds (i + 1) ls

/-- Worker-side model for ThreadedCommandProcessor::ThreadProc.  The
DependentProcessor (a ReportWriter or ConsoleOutput) is abstracted as a
sink function that either succeeds or raises a failure (an exception
whose what() is the returned string).  The batches a worker drains from
its queue over its lifetime are processed in order inside the single
try block of ThreadProc: a success lets the loop continue, while a
failure unwinds out of the processing loop to the catch at the thread
boundary, which logs the message; the thread then exits, so the
remaining batches are never processed.  The function returns the batches
processed successfully and the logged error, if any; its totality models
the fact that the exception never escapes ThreadProc. -/
def workerRun (sink : CommandBatch → Except String Unit) :
    List CommandBatch → List CommandBatch × Option String
  | [] => ([], none)
  | b :: bs =>
    match sink b with
    | Except.ok _ =>
      let r := workerRun sink bs
      (b :: r.1, r.2)
    | Except.error e => ([], some e)

/-- A sink that fails on the batch with timestamp 1, standing for a
ReportWriter whose file write raises on that batch. -/
def failingSink (b : CommandBatch) : Except String Unit :=
  if b.mTimestamp = 1 then Except.error "write error" else Except.ok ()

/-- Program counter of a ThreadedCommandProcessor worker thread:
about to evaluate the while condition, blocked in the condition wait,
or exited (loop left, dependent processor stopped). -/
inductive WorkerPC where
  | loopCheck
  | waiting
  | exited
  deriving DecidableEq

/-- Shared state of one ThreadedCommandProcessor and its worker:
mQueue and mDone (shared, mutex/atomic protected), the batches the
worker's dependent processor has consumed, and the worker position. -/
structure DispState where
  queue : List CommandBatch
  done : Bool
  processed : List CommandBatch
  pc : WorkerPC
  deriving DecidableEq

/-- Interleaving events for the dispatcher: the producer thread's
ProcessBatch (enqueue, dropped silently when mDone) and Stop (set
mDone), and the worker's two visible steps: evaluating the while
condition, and returning from the condition wait (whose predicate is
queue non-empty or mDone) followed immediately by ProcessQueue, which
swaps out and processes the entire queue. -/
inductive DEvent where
  | enq (b : CommandBatch)
  | stopEv
  | check
  | wake

/-- One interleaved step of the dispatcher system. -/
def dstep (s : DispState) : DEvent → DispState
  | DEvent.enq b => if s.done then s else { s with queue := s.queue ++ [b] }
  | DEvent.stopEv => { s with done := true }
  | DEvent.check =>
      if s.pc = WorkerPC.loopCheck then
        if s.done then { s with pc := WorkerPC.exited }
        else { s with pc := WorkerPC.waiting }
      else s
  | DEvent.wake =>
      if s.pc = WorkerPC.waiting ∧ (s.queue ≠ [] ∨ s.done = true) then
        { s with processed := s.processed ++ s.queue, queue := [],
                 pc := WorkerPC.loopCheck }
      else s

/-- Run a schedule of interleaved events. -/
def drun (s : DispState) (es : List DEvent) : DispState := es.foldl dstep s

/-- Initial dispatcher state: empty queue, not stopped, worker about to
evaluate its while condition for the first time. -/
def dinit : DispState := ⟨[], false, [], WorkerPC.loopCheck⟩

/-- A schedule losing a pre-stop batch: the worker waits, the producer
enqueues a first batch, the worker drains it, the producer enqueues a
second batch and only then calls Stop, and the worker's next while-check
sees mDone and exits without another drain. -/
def lostBatchSchedule : List DEvent :=
  [DEvent.check, DEvent.enq ⟨[⟨"a", 0⟩], 0⟩, DEvent.wake,
   DEvent.enq ⟨[⟨"b", 1⟩], 1⟩, DEvent.stopEv, DEvent.check]

/-- The character classification of isspace in the C locale, as consulted
by atoi. -/
def isSpaceC (c : Char) : Bool :=
  c == ' ' || c == '\t' || c == '\n' || c == '\x0b' || c == '\x0c' || c == '\r'

/-- Accumulate the leading decimal digits, as atoi does. -/
def atoiDigits : List Char → Int → Int
  | [], acc => acc
  | c :: cs, acc =>
      if c.isDigit then atoiDigits cs (acc * 10 + ((c.toNat - '0'.toNat : Nat) : Int))
      else acc

/-- C atoi: skip leading whitespace, read an optional sign, then the
longest prefix of decimal digits; any string without leading digits
yields 0.  Overflow is undefined behaviour in C and is not modelled; the
claims only involve small values. -/
def atoi (str : String) : Int :=
  match str.data.dropWhile isSpaceC with
  | '-' :: rest => - atoiDigits rest 0
  | '+' :: rest => atoiDigits rest 0
  | cs => atoiDigits cs 0

/-- Outcome of main: a usage error printed to the error stream before
any pipeline construction (exit code 1), normal completion of RunBulk
(exit code 0), or an exception caught by the try block around main's
body, reported to the error stream (exit code 0). -/
inductive MainOutcome where
  | usage (errMsg : String)
  | completed
  | fatal (errMsg : String)
  deriving DecidableEq

/-- The process exit code for each outcome of main. -/
def MainOutcome.exitCode : MainOutcome → Int
  | usage _ => 1
  | completed => 0
  | fatal _ => 0

/-- Whether the pipeline (RunBulk) was entered at all. -/
def MainOutcome.pipelineRan : MainOutcome → Bool
  | usage _ => false
  | completed => true
  | fatal _ => true

/-- main from src/bulkmt.cpp: fewer than two argv entries is a usage
error; atoi of argv[1] equal to 0 is a usage error; otherwise RunBulk
runs (abstracted as a fallible action receiving the int bulk size) and
main returns 0, with any escaping exception caught, logged and still
answered with exit code 0. -/
def mainRun (args : List String) (runBulk : Int → Except String Unit) :
    MainOutcome :=
  match args with
  | _ :: arg :: _ =>
    if atoi arg = 0 then MainOutcome.usage "Invalid bulk size."
    else
      match runBulk (atoi arg) with
      | Except.ok _ => MainOutcome.completed
      | Except.error e => MainOutcome.fatal e
  | _ => MainOutcome.usage "Bulk size is not specified."

/-- The C++ conversion of a (64-bit) int to size_t in the
BatchCommandProcessor constructor: reduction modulo 2 to the 64. -/
def intToSizeT (i : Int) : Nat := (i % ((2 : Int) ^ 64)).toNat


/-- C7: with any bulkSize, the nested-block input (open, open, "a", close,
close) produces exactly one dispatched batch, flushed by the block-finish
event at the final close marker, and that batch holds the single command
"a"; after the first four lines nothing has been dispatched. -/
theorem c7_nested_blocks_single_batch :
    ∀ n : Nat,
      (runLines n ["\x7b", "\x7b", "a", "\x7d", "\x7d"]).dispatched =
        [(Trigger.finishT, ⟨[⟨"a", 2⟩], 2⟩)] ∧
      (runLines n ["\x7b", "\x7b", "a", "\x7d"]).dispatched = [] := by
  intro n
  constructor <;>
    simp [runLines, runFrom, consoleProcessLine, consoleProcessLineBase,
      incLine, consoleStartBlock, consoleFinishBlock, consoleProcessCommand,
      batchStartBlock, batchFinishBlock, batchProcessCommand, dumpBatch,
      accProcessBatch, fileProcessBatch, logProcessBatch, firstTs, initState,
      Counters.addBatch, CommandBatch.Size]

/-- C1 counterexample: with bulkSize 10 and input (open, "a", open, "b",
close, close), the inner open marker (depth transition 1 to 2) emits a
block-start event that forcibly flushes the pending command "a", so two
batches are dispatched instead of one; the claim that inner block-open
markers emit no events and force no flush is false of the code, whose
ConsoleInput::ProcessLine emits StartBlock whenever the incremented depth
is positive. -/
theorem c1_counterexample :
    (runLines 10 ["\x7b", "a", "\x7b", "b", "\x7d", "\x7d"]).dispatched =
      [(Trigger.startT, ⟨[⟨"a", 1⟩], 1⟩), (Trigger.finishT, ⟨[⟨"b", 3⟩], 3⟩)] := by
  simp [runLines, runFrom, consoleProcessLine, consoleProcessLineBase,
    incLine, consoleStartBlock, consoleFinishBlock, consoleProcessCommand,
    batchStartBlock, batchFinishBlock, batchProcessCommand, dumpBatch,
    accProcessBatch, fileProcessBatch, logProcessBatch, firstTs, initState,
    Counters.addBatch, CommandBatch.Size]

/-- C1 (amended): an open-brace line processed at depth at least 0 always
emits a block-start event (so inner open markers at depth at least 1 also
emit block-start, which forces a flush of any pending commands), while a
close-brace line processed at depth at least 2 emits no event at all: it
only decrements the depth and runs the unconditional line accounting. -/
theorem c1_block_events :
    (∀ (s : PipeState) (i : Nat), 0 ≤ s.blockDepth →
       consoleProcessLine s "\x7b" i =
         consoleProcessLineBase
           (consoleStartBlock { s with blockDepth := s.blockDepth + 1 })) ∧
    (∀ (s : PipeState) (i : Nat), 2 ≤ s.blockDepth →
       consoleProcessLine s "\x7d" i =
         consoleProcessLineBase { s with blockDepth := s.blockDepth - 1 }) := by
  constructor
  · intro s i h
    have hd : (0 : Int) < s.blockDepth + 1 := by omega
    simp [consoleProcessLine, hd]
  · intro s i h
    have hd : ¬ (s.blockDepth - 1 = 0) := by omega
    simp [consoleProcessLine, hd]

/-- C1 witness: the amended theorem applied at a concrete inner-block
state of depth 2 with one pending command. -/
theorem c1_witness :
    consoleProcessLine
        { initState 10 with blockDepth := 2, blockForced := true,
                            mCommandBatch := [⟨"a", 1⟩] } "\x7b" 2 =
      consoleProcessLineBase
        (consoleStartBlock
          { initState 10 with blockDepth := 3, blockForced := true,
                              mCommandBatch := [⟨"a", 1⟩] }) ∧
    consoleProcessLine
        { initState 10 with blockDepth := 2, blockForced := true,
                            mCommandBatch := [⟨"a", 1⟩] } "\x7d" 2 =
      consoleProcessLineBase
        { initState 10 with blockDepth := 1, blockForced := true,
                            mCommandBatch := [⟨"a", 1⟩] } := by
  constructor
  · exact c1_block_events.1
      { initState 10 with blockDepth := 2, blockForced := true,
                          mCommandBatch := [⟨"a", 1⟩] } 2 (by decide)
  · exact c1_block_events.2
      { initState 10 with blockDepth := 2, blockForced := true,
                          mCommandBatch := [⟨"a", 1⟩] } 2 (by decide)

/-- DumpBatch always leaves mCommandBatch empty: either it was already
empty, or it is cleared after the dispatch. -/
theorem dumpBatch_pending (t : Trigger) (s : PipeState) :
    (dumpBatch t s).mCommandBatch = [] := by
  unfold dumpBatch
  split_ifs with h
  · simpa [List.isEmpty_iff] using h
  · rfl

/-- DumpBatch appends to the dispatched log exactly when the pending batch
is non-empty, tagging it with its trigger and the first pending
command's timestamp. -/
theorem dumpBatch_dispatched (t : Trigger) (s : PipeState) :
    (dumpBatch t s).dispatched =
      s.dispatched ++
        (if s.mCommandBatch.isEmpty then []
         else [(t, ⟨s.mCommandBatch, firstTs s.mCommandBatch⟩)]) := by
  unfold dumpBatch accProcessBatch fileProcessBatch logProcessBatch
  split_ifs <;> simp

/-- DumpBatch does not touch the block depth, the bulk size, the forced
flag or the two done flags. -/
theorem dumpBatch_frame (t : Trigger) (s : PipeState) :
    (dumpBatch t s).blockDepth = s.blockDepth ∧
    (dumpBatch t s).bulkSize = s.bulkSize ∧
    (dumpBatch t s).blockForced = s.blockForced ∧
    (dumpBatch t s).fileDone = s.fileDone ∧
    (dumpBatch t s).logDone = s.logDone := by
  unfold dumpBatch accProcessBatch fileProcessBatch logProcessBatch
  split_ifs <;> simp

/-- C3 counterexample: at a fresh accumulator with bulkSize 10,
BatchCommandProcessor::ProcessCommand appends the command to
mCommandBatch but leaves the command counter untouched, refuting the
claim that onCommand increments the accumulator's commands counter; in
the source the counter is only advanced elsewhere (by the flush path and
by the forwarding wrappers). -/
theorem c3_counterexample :
    (batchProcessCommand (initState 10) ⟨"a", 0⟩).mCommandBatch = [⟨"a", 0⟩] ∧
    (batchProcessCommand (initState 10) ⟨"a", 0⟩).counters.mCommandCounter = 0 := by
  decide

/-- C3 (amended): ProcessCommand appends the command to the pending batch
and flushes exactly when the forced flag is down and the post-append size
has reached bulkSize (so while mBlockForced is true the size threshold is
never consulted); it performs no counter update of its own: the commands
counter moves only through the flush path. -/
theorem c3_append_flush :
    ∀ (s : PipeState) (c : Command),
      (s.blockForced = true →
        batchProcessCommand s c =
          { s with mCommandBatch := s.mCommandBatch ++ [c] }) ∧
      (¬ (s.blockForced = false ∧ s.bulkSize ≤ s.mCommandBatch.length + 1) →
        batchProcessCommand s c =
          { s with mCommandBatch := s.mCommandBatch ++ [c] }) ∧
      (s.blockForced = false → s.bulkSize ≤ s.mCommandBatch.length + 1 →
        batchProcessCommand s c =
          dumpBatch Trigger.sizeT
            { s with mCommandBatch := s.mCommandBatch ++ [c] } ∧
        (batchProcessCommand s c).mCommandBatch = []) := by
  intro s c
  refine ⟨?_, ?_, ?_⟩
  · intro h
    unfold batchProcessCommand
    dsimp only
    split_ifs with hc
    · simp [h] at hc
    · rfl
  · intro h
    unfold batchProcessCommand
    dsimp only
    split_ifs with hc
    · simp only [List.length_append, List.length_singleton] at hc
      exact absurd hc h
    · rfl
  · intro h1 h2
    constructor
    · unfold batchProcessCommand
      dsimp only
      split_ifs with hc
      · rfl
      · exact absurd ⟨h1, by simpa using h2⟩ hc
    · unfold batchProcessCommand
      dsimp only
      split_ifs with hc
      · exact dumpBatch_pending _ _
      · exact absurd ⟨h1, by simpa using h2⟩ hc

/-- C3 witness: the amended theorem at two concrete inputs, one inside a
forced block (append only), one hitting the size threshold (flush). -/
theorem c3_witness :
    batchProcessCommand { initState 10 with blockForced := true } ⟨"a", 0⟩ =
      { initState 10 with blockForced := true, mCommandBatch := [⟨"a", 0⟩] } ∧
    (batchProcessCommand (initState 1) ⟨"a", 0⟩).mCommandBatch = [] := by
  constructor
  · exact ((c3_append_flush { initState 10 with blockForced := true }
      ⟨"a", 0⟩).1 rfl).trans (by decide)
  · exact ((c3_append_flush (initState 1) ⟨"a", 0⟩).2.2 rfl (by decide)).2

theorem Counters.le_rfl (a : Counters) : Counters.le a a := by
  unfold Counters.le
  omega

theorem Counters.le_trans {a b c : Counters} (h1 : Counters.le a b)
    (h2 : Counters.le b c) : Counters.le a c := by
  unfold Counters.le at *
  omega

theorem counters_le_addBatch (c : Counters) (sz : Nat) :
    Counters.le c (c.addBatch sz) := by
  unfold Counters.le Counters.addBatch
  dsimp only
  omega

theorem counters_le_file (s : PipeState) (b : CommandBatch) :
    Counters.le s.counters (fileProcessBatch s b).counters := by
  unfold fileProcessBatch
  split_ifs
  · exact Counters.le_rfl _
  · exact counters_le_addBatch _ _

theorem counters_le_log (s : PipeState) (b : CommandBatch) :
    Counters.le s.counters (logProcessBatch s b).counters := by
  unfold logProcessBatch
  split_ifs
  · exact Counters.le_rfl _
  · exact counters_le_addBatch _ _

theorem counters_le_acc (t : Trigger) (s : PipeState) (b : CommandBatch) :
    Counters.le s.counters (accProcessBatch t s b).counters := by
  unfold accProcessBatch
  dsimp only
  exact Counters.le_trans (counters_le_file s b)
    (Counters.le_trans (counters_le_log _ b) (counters_le_addBatch _ _))

theorem counters_le_dump (t : Trigger) (s : PipeState) :
    Counters.le s.counters (dumpBatch t s).counters := by
  unfold dumpBatch
  split_ifs
  · exact Counters.le_rfl _
  · exact counters_le_acc t s _

theorem counters_le_batchProcessCommand (s : PipeState) (c : Command) :
    Counters.le s.counters (batchProcessCommand s c).counters := by
  unfold batchProcessCommand
  dsimp only
  split_ifs
  · exact counters_le_dump _ _
  · exact Counters.le_rfl _

theorem counters_le_consoleStartBlock (s : PipeState) :
    Counters.le s.counters (consoleStartBlock s).counters := by
  unfold consoleStartBlock batchStartBlock
  dsimp only
  refine Counters.le_trans (counters_le_dump Trigger.startT
    { s with blockForced := true }) ?_
  unfold Counters.le
  dsimp only
  omega

theorem counters_le_consoleFinishBlock (s : PipeState) :
    Counters.le s.counters (consoleFinishBlock s).counters := by
  unfold consoleFinishBlock batchFinishBlock
  exact counters_le_dump Trigger.finishT { s with blockForced := false }

theorem counters_le_consoleProcessCommand (s : PipeState) (c : Command) :
    Counters.le s.counters (consoleProcessCommand s c).counters := by
  unfold consoleProcessCommand
  dsimp only
  refine Counters.le_trans (counters_le_batchProcessCommand s c) ?_
  unfold Counters.le
  dsimp only
  omega

theorem counters_le_base (s : PipeState) :
    Counters.le s.counters (consoleProcessLineBase s).counters := by
  unfold consoleProcessLineBase incLine
  unfold Counters.le
  dsimp only
  omega

theorem counters_le_consoleProcessLine (s : PipeState) (l : String) (i : Nat) :
    Counters.le s.counters (consoleProcessLine s l i).counters := by
  unfold consoleProcessLine
  dsimp only
  refine Counters.le_trans ?_ (counters_le_base _)
  split_ifs
  · exact counters_le_consoleStartBlock _
  · exact Counters.le_rfl _
  · exact counters_le_consoleFinishBlock _
  · exact Counters.le_rfl _
  · exact counters_le_consoleProcessCommand _ _

theorem counters_le_consoleStop (s : PipeState) :
    Counters.le s.counters (consoleStop s).counters := by
  unfold consoleStop batchStop logStop fileStop
  dsimp only
  split_ifs
  · exact counters_le_dump _ _
  · exact Counters.le_rfl _

/-- C4 counterexample: counters are not per-node.  An operation on the
"file" dispatcher node (its ProcessBatch, run here on the main thread)
changes the counter record subsequently reported by the ConsoleInput
node's DumpCounters, because mCounters is one thread_local static record
shared by every CommandProcessor object on the thread. -/
theorem c4_counterexample :
    consoleDumpCounters (fileProcessBatch (initState 10) ⟨[⟨"a", 0⟩], 0⟩) ≠
      consoleDumpCounters (initState 10) := by
  decide

/-- C4 (amended): the counter record is per-thread, not per-node: every
node of the main-thread pipeline reports the same thread_local static
record through DumpCounters.  That shared record is monotonically
non-decreasing under every pipeline operation and no operation ever
decrements any of its three fields. -/
theorem c4_counters_shared_monotone :
    (∀ s : PipeState,
      consoleDumpCounters s = batchDumpCounters s ∧
      batchDumpCounters s = fileDumpCounters s) ∧
    (∀ (s : PipeState) (l : String) (i : Nat),
      Counters.le s.counters (consoleProcessLine s l i).counters) ∧
    (∀ s : PipeState, Counters.le s.counters (consoleStop s).counters) := by
  refine ⟨fun s => ⟨rfl, rfl⟩, ?_, ?_⟩
  · exact counters_le_consoleProcessLine
  · exact counters_le_consoleStop

/-- C5 counterexample: with bulkSize 1, processing the single command line
"a" from a fresh pipeline performs exactly one flush (one dispatched
batch), yet the block counter reported for the accumulator ends at 3, not
1: the accumulator's own ProcessBatch adds one, and the synchronous
enqueue path of each of the two downstream dispatchers adds one more to
the same thread_local static record.  The claim that a flush increments
the blocks counter by exactly one is therefore false of the code. -/
theorem c5_counterexample :
    (runLines 1 ["a"]).dispatched.length = 1 ∧
    (initState 1).counters.mBlockCounter = 0 ∧
    (runLines 1 ["a"]).counters.mBlockCounter = 3 := by
  refine ⟨?_, rfl, ?_⟩ <;> decide

/-- C5 (amended): DumpBatch is a no-op on an empty pending batch;
otherwise it dispatches exactly one batch equal to the pending commands
in insertion order with the first pending command's timestamp, hands it
to every downstream dispatcher that is not yet stopped, clears the
pending batch, and advances the thread-shared block counter by one for
the accumulator itself plus one per live downstream dispatcher (and the
command counter by the batch size times the same factor). -/
theorem c5_flush :
    ∀ (t : Trigger) (s : PipeState),
      (s.mCommandBatch = [] → dumpBatch t s = s) ∧
      (s.mCommandBatch ≠ [] →
        (dumpBatch t s).dispatched =
          s.dispatched ++ [(t, ⟨s.mCommandBatch, firstTs s.mCommandBatch⟩)] ∧
        (dumpBatch t s).mCommandBatch = [] ∧
        (dumpBatch t s).fileQueue =
          s.fileQueue ++
            (if s.fileDone then [] else [⟨s.mCommandBatch, firstTs s.mCommandBatch⟩]) ∧
        (dumpBatch t s).logQueue =
          s.logQueue ++
            (if s.logDone then [] else [⟨s.mCommandBatch, firstTs s.mCommandBatch⟩]) ∧
        (dumpBatch t s).counters.mBlockCounter =
          s.counters.mBlockCounter + 1 +
            (if s.fileDone then 0 else 1) + (if s.logDone then 0 else 1) ∧
        (dumpBatch t s).counters.mCommandCounter =
          s.counters.mCommandCounter +
            (1 + (if s.fileDone then 0 else 1) + (if s.logDone then 0 else 1)) *
              (s.mCommandBatch.length : Int)) := by
  intro t s
  constructor
  · intro h
    unfold dumpBatch
    rw [if_pos (by simp [h])]
  · intro h
    unfold dumpBatch accProcessBatch fileProcessBatch logProcessBatch
    dsimp only
    rw [if_neg (by simp [h])]
    split_ifs <;>
      simp [Counters.addBatch, CommandBatch.Size] <;> ring

/-- C5 witness: the amended theorem at an empty and at a one-command
pending batch. -/
theorem c5_witness :
    dumpBatch Trigger.stopT (initState 10) = initState 10 ∧
    (dumpBatch Trigger.finishT
        { initState 10 with mCommandBatch := [⟨"a", 5⟩] }).dispatched =
      [(Trigger.finishT, ⟨[⟨"a", 5⟩], 5⟩)] := by
  constructor
  · exact (c5_flush Trigger.stopT (initState 10)).1 rfl
  · exact (((c5_flush Trigger.finishT
      { initState 10 with mCommandBatch := [⟨"a", 5⟩] }).2
        (by decide)).1).trans (by decide)

theorem dispatchedCmds_append (xs ys : List (Trigger × CommandBatch)) :
    dispatchedCmds (xs ++ ys) = dispatchedCmds xs ++ dispatchedCmds ys := by
  induction xs with
  | nil => simp [dispatchedCmds]
  | cons x xs ih => simp [dispatchedCmds, ih]

theorem conserve_dump (t : Trigger) (s : PipeState) :
    dispatchedCmds (dumpBatch t s).dispatched ++ (dumpBatch t s).mCommandBatch =
      dispatchedCmds s.dispatched ++ s.mCommandBatch := by
  rw [dumpBatch_dispatched, dumpBatch_pending, dispatchedCmds_append]
  split_ifs with h
  · simp only [List.isEmpty_iff] at h
    simp [h, dispatchedCmds]
  · simp [dispatchedCmds]

theorem conserve_batchStartBlock (s : PipeState) :
    dispatchedCmds (batchStartBlock s).dispatched ++ (batchStartBlock s).mCommandBatch =
      dispatchedCmds s.dispatched ++ s.mCommandBatch := by
  unfold batchStartBlock
  exact conserve_dump Trigger.startT { s with blockForced := true }

theorem conserve_batchFinishBlock (s : PipeState) :
    dispatchedCmds (batchFinishBlock s).dispatched ++ (batchFinishBlock s).mCommandBatch =
      dispatchedCmds s.dispatched ++ s.mCommandBatch := by
  unfold batchFinishBlock
  exact conserve_dump Trigger.finishT { s with blockForced := false }

theorem conserve_batchProcessCommand (s : PipeState) (c : Command) :
    dispatchedCmds (batchProcessCommand s c).dispatched ++
        (batchProcessCommand s c).mCommandBatch =
      dispatchedCmds s.dispatched ++ s.mCommandBatch ++ [c] := by
  unfold batchProcessCommand
  dsimp only
  split_ifs
  · have h := conserve_dump Trigger.sizeT { s with mCommandBatch := s.mCommandBatch ++ [c] }
    simpa [List.append_assoc] using h
  · simp [List.append_assoc]

theorem conserve_step (s : PipeState) (l : String) (i : Nat) :
    dispatchedCmds (consoleProcessLine s l i).dispatched ++
        (consoleProcessLine s l i).mCommandBatch =
      dispatchedCmds s.dispatched ++ s.mCommandBatch ++ lineCmds l i := by
  unfold consoleProcessLine consoleProcessLineBase incLine
  dsimp only
  split_ifs with h1 h2 h3 h4
  · have h := conserve_batchStartBlock { s with blockDepth := s.blockDepth + 1 }
    unfold consoleStartBlock at *
    simpa [lineCmds, h1] using h
  · simp [lineCmds, h1]
  · have h := conserve_batchFinishBlock { s with blockDepth := s.blockDepth - 1 }
    unfold consoleFinishBlock at *
    simpa [lineCmds, h3] using h
  · simp [lineCmds, h3]
  · have h := conserve_batchProcessCommand s ⟨l, i⟩
    unfold consoleProcessCommand at *
    simpa [lineCmds, h1, h3] using h

theorem conserve_runFrom :
    ∀ (ls : List String) (s : PipeState) (i : Nat),
      dispatchedCmds (runFrom s i ls).dispatched ++ (runFrom s i ls).mCommandBatch =
        dispatchedCmds s.dispatched ++ s.mCommandBatch ++ inputCmds i ls := by
  intro ls
  induction ls with
  | nil => intro s i; simp [runFrom, inputCmds]
  | cons l ls ih =>
    intro s i
    simp only [runFrom]
    rw [ih (consoleProcessLine s l i) (i + 1), conserve_step]
    simp [inputCmds, List.append_assoc]

/-- C6: BatchCommandProcessor::Stop flushes the remaining partial batch
exactly when no forced block is open, then propagates Stop to both
downstream dispatchers; commands accumulated inside a still-open forced
block are not flushed; and over a whole run ending outside a forced
block, the commands of all dispatched batches are exactly the non-marker
input lines in order, so no command is silently dropped. -/
theorem c6_stop :
    (∀ s : PipeState, s.blockForced = true →
       consoleStop s = logStop (fileStop s)) ∧
    (∀ s : PipeState, s.blockForced = false →
       dispatchedCmds (consoleStop s).dispatched =
         dispatchedCmds s.dispatched ++ s.mCommandBatch ∧
       (consoleStop s).mCommandBatch = [] ∧
       (consoleStop s).fileDone = true ∧ (consoleStop s).logDone = true) ∧
    (∀ (bulk : Nat) (ls : List String),
       (runLines bulk ls).blockForced = false →
       dispatchedCmds (consoleStop (runLines bulk ls)).dispatched =
         inputCmds 0 ls) := by
  refine ⟨?_, ?_, ?_⟩
  · intro s h
    unfold consoleStop batchStop
    rw [if_neg (by simp [h])]
  · intro s h
    unfold consoleStop batchStop logStop fileStop
    rw [if_pos h]
    dsimp only
    refine ⟨?_, dumpBatch_pending _ _, rfl, rfl⟩
    have h2 := conserve_dump Trigger.stopT s
    rw [dumpBatch_pending] at h2
    simpa using h2
  · intro bulk ls h
    have h1 := conserve_runFrom ls (initState bulk) 0
    have h2 : dispatchedCmds (consoleStop (runLines bulk ls)).dispatched =
        dispatchedCmds (runLines bulk ls).dispatched ++
          (runLines bulk ls).mCommandBatch := by
      unfold consoleStop batchStop logStop fileStop
      rw [if_pos h]
      dsimp only
      have h3 := conserve_dump Trigger.stopT (runLines bulk ls)
      rw [dumpBatch_pending] at h3
      simpa using h3
    rw [h2]
    simpa [runLines, initState, dispatchedCmds] using h1

/-- C6 witness: stop inside an open block keeps the pending command
undispatched; stop outside a block flushes it; a two-command run with
bulkSize 3 dispatches exactly its input commands. -/
theorem c6_witness :
    consoleStop { initState 10 with blockForced := true,
                                    mCommandBatch := [⟨"a", 0⟩] } =
      logStop (fileStop { initState 10 with blockForced := true,
                                            mCommandBatch := [⟨"a", 0⟩] }) ∧
    dispatchedCmds (consoleStop { initState 10 with
        mCommandBatch := [⟨"a", 0⟩] }).dispatched = [⟨"a", 0⟩] ∧
    dispatchedCmds (consoleStop (runLines 3 ["a", "b"])).dispatched =
      [⟨"a", 0⟩, ⟨"b", 1⟩] := by
  refine ⟨?_, ?_, ?_⟩
  · exact c6_stop.1 _ rfl
  · exact ((c6_stop.2.1 { initState 10 with
      mCommandBatch := [⟨"a", 0⟩] } rfl).1).trans (by decide)
  · exact (c6_stop.2.2 3 ["a", "b"] (by decide)).trans (by decide)
theorem dumpBatch_mem_dispatched (t : Trigger) (s : PipeState) :
    ∀ tb ∈ (dumpBatch t s).dispatched, tb ∈ s.dispatched ∨ tb.1 = t := by
  intro tb htb
  rw [dumpBatch_dispatched] at htb
  rcases List.mem_append.mp htb with hmem | hmem
  · exact Or.inl hmem
  · right
    split_ifs at hmem with he
    · simp at hmem
    · simp at hmem
      simp [hmem]

theorem consoleProcessLine_noFlushBySize (s : PipeState) (l : String) (i : Nat)
    (h : s.mCommandBatch.length + 1 < s.bulkSize) :
    (consoleProcessLine s l i).bulkSize = s.bulkSize ∧
    (consoleProcessLine s l i).mCommandBatch.length ≤ s.mCommandBatch.length + 1 ∧
    (∀ tb ∈ (consoleProcessLine s l i).dispatched,
       tb ∈ s.dispatched ∨ tb.1 ≠ Trigger.sizeT) := by
  unfold consoleProcessLine consoleProcessLineBase incLine
  dsimp only
  split_ifs with h1 h2 h3 h4
  · unfold consoleStartBlock batchStartBlock
    dsimp only
    refine ⟨(dumpBatch_frame _ _).2.1, ?_, ?_⟩
    · rw [dumpBatch_pending]; simp
    · intro tb htb
      rcases dumpBatch_mem_dispatched _ _ tb htb with hmem | hmem
      · exact Or.inl hmem
      · right; rw [hmem]; decide
  · exact ⟨rfl, by simp, fun tb htb => Or.inl htb⟩
  · unfold consoleFinishBlock batchFinishBlock
    dsimp only
    refine ⟨(dumpBatch_frame _ _).2.1, ?_, ?_⟩
    · rw [dumpBatch_pending]; simp
    · intro tb htb
      rcases dumpBatch_mem_dispatched _ _ tb htb with hmem | hmem
      · exact Or.inl hmem
      · right; rw [hmem]; decide
  · exact ⟨rfl, by simp, fun tb htb => Or.inl htb⟩
  · unfold consoleProcessCommand batchProcessCommand
    dsimp only
    rw [if_neg]
    · exact ⟨rfl, by simp, fun tb htb => Or.inl htb⟩
    · rintro ⟨hf, hlen⟩
      simp only [List.length_append, List.length_singleton] at hlen
      omega

theorem runFrom_noSizeT :
    ∀ (ls : List String) (s : PipeState) (i : Nat),
      s.mCommandBatch.length + ls.length < s.bulkSize →
      (∀ tb ∈ s.dispatched, tb.1 ≠ Trigger.sizeT) →
      (∀ tb ∈ (runFrom s i ls).dispatched, tb.1 ≠ Trigger.sizeT) := by
  intro ls
  induction ls with
  | nil => intro s i h hd; simpa [runFrom] using hd
  | cons l ls ih =>
    intro s i h hd
    have hlen : s.mCommandBatch.length + 1 < s.bulkSize := by
      simp only [List.length_cons] at h
      omega
    have hstep := consoleProcessLine_noFlushBySize s l i hlen
    simp only [runFrom]
    apply ih (consoleProcessLine s l i) (i + 1)
    · rw [hstep.1]
      have h2 := hstep.2.1
      simp only [List.length_cons] at h
      omega
    · intro tb htb
      rcases hstep.2.2 tb htb with hmem | hne
      · exact hd tb hmem
      · exact hne

theorem consoleStop_mem (s : PipeState) :
    ∀ tb ∈ (consoleStop s).dispatched, tb ∈ s.dispatched ∨ tb.1 = Trigger.stopT := by
  unfold consoleStop batchStop logStop fileStop
  dsimp only
  split_ifs
  · exact dumpBatch_mem_dispatched _ _
  · intro tb htb
    exact Or.inl htb

/-- C2 counterexample: a worker whose sink raises on its first drained
batch logs the failure but then exits: the second batch, already in its
work list, is never processed, refuting the claim that the same worker
continues processing subsequent batches; in the source the catch block
of ThreadProc sits outside the while loop. -/
theorem c2_counterexample :
    workerRun failingSink [⟨[⟨"a", 0⟩], 1⟩, ⟨[⟨"b", 0⟩], 2⟩] =
      ([], some "write error") := by
  decide

/-- C2 (amended): a sink failure inside a worker is caught at the
ThreadProc boundary and logged and never propagates further (the model
of the worker is a total function returning the logged message), and the
failed batch is lost for that sink only; but the worker does not
continue: with an all-successful sink every batch is processed, while
the first failure ends the worker with exactly the preceding batches
processed and everything after the failing batch unprocessed. -/
theorem c2_worker_failure :
    (∀ (sink : CommandBatch → Except String Unit) (bs : List CommandBatch),
       (∀ b ∈ bs, sink b = Except.ok ()) →
       workerRun sink bs = (bs, none)) ∧
    (∀ (sink : CommandBatch → Except String Unit)
       (pre : List CommandBatch) (b : CommandBatch) (post : List CommandBatch)
       (e : String),
       (∀ x ∈ pre, sink x = Except.ok ()) → sink b = Except.error e →
       workerRun sink (pre ++ b :: post) = (pre, some e)) := by
  constructor
  · intro sink bs
    induction bs with
    | nil => intro _; rfl
    | cons b bs ih =>
      intro h
      have hb : sink b = Except.ok () := h b (List.mem_cons_self b bs)
      have hrest := ih fun x hx => h x (List.mem_cons_of_mem b hx)
      simp [workerRun, hb, hrest]
  · intro sink pre b post e
    induction pre with
    | nil =>
      intro _ hb
      simp [workerRun, hb]
    | cons x pre ih =>
      intro h hb
      have hx : sink x = Except.ok () := h x (List.mem_cons_self x pre)
      have hrest := ih (fun y hy => h y (List.mem_cons_of_mem x hy)) hb
      simp [workerRun, hx, hrest]

/-- C2 witness: the amended theorem on a failure-free queue and on a
queue whose second batch makes the sink fail. -/
theorem c2_witness :
    workerRun failingSink [⟨[], 0⟩, ⟨[], 2⟩] = ([⟨[], 0⟩, ⟨[], 2⟩], none) ∧
    workerRun failingSink [⟨[], 0⟩, ⟨[], 1⟩, ⟨[], 2⟩] =
      ([⟨[], 0⟩], some "write error") := by
  constructor
  · exact c2_worker_failure.1 failingSink [⟨[], 0⟩, ⟨[], 2⟩]
      (by intro b hb; fin_cases hb <;> try rfl)
  · exact c2_worker_failure.2 failingSink [⟨[], 0⟩] ⟨[], 1⟩ [⟨[], 2⟩]
      "write error" (by intro x hx; fin_cases hx; rfl) rfl

/-- C8: main rejects a missing second argv entry and an argv[1] whose
atoi value is 0 (which covers non-numeric strings) with a usage message
and exit code 1 before the pipeline is built; when RunBulk completes,
main returns 0; when an exception escapes, main catches it, reports it
and still returns 0. -/
theorem c8_cli :
    (∀ (args : List String) (run : Int → Except String Unit),
       args.length < 2 →
       mainRun args run = MainOutcome.usage "Bulk size is not specified.") ∧
    (∀ (p a : String) (rest : List String) (run : Int → Except String Unit),
       atoi a = 0 →
       mainRun (p :: a :: rest) run = MainOutcome.usage "Invalid bulk size.") ∧
    (∀ (p a : String) (rest : List String) (run : Int → Except String Unit),
       atoi a ≠ 0 → run (atoi a) = Except.ok () →
       mainRun (p :: a :: rest) run = MainOutcome.completed) ∧
    (∀ (p a : String) (rest : List String) (run : Int → Except String Unit)
       (e : String),
       atoi a ≠ 0 → run (atoi a) = Except.error e →
       mainRun (p :: a :: rest) run = MainOutcome.fatal e) ∧
    (∀ m : String, (MainOutcome.usage m).exitCode = 1 ∧
       (MainOutcome.usage m).pipelineRan = false) ∧
    MainOutcome.completed.exitCode = 0 ∧
    (∀ e : String, (MainOutcome.fatal e).exitCode = 0) := by
  refine ⟨?_, ?_, ?_, ?_, fun m => ⟨rfl, rfl⟩, rfl, fun e => rfl⟩
  · intro args run h
    match args with
    | [] => rfl
    | [p] => rfl
    | p :: a :: rest => simp at h; omega
  · intro p a rest run h
    simp [mainRun, h]
  · intro p a rest run h hrun
    simp [mainRun, h, hrun]
  · intro p a rest run e h hrun
    simp [mainRun, h, hrun]

/-- C8 witness: main at a missing argument, a non-numeric argument, a
zero argument, a successful run and a fatally failing run. -/
theorem c8_witness :
    mainRun ["bulkmt"] (fun _ => Except.ok ()) =
      MainOutcome.usage "Bulk size is not specified." ∧
    mainRun ["bulkmt", "abc"] (fun _ => Except.ok ()) =
      MainOutcome.usage "Invalid bulk size." ∧
    mainRun ["bulkmt", "0"] (fun _ => Except.ok ()) =
      MainOutcome.usage "Invalid bulk size." ∧
    mainRun ["bulkmt", "3"] (fun _ => Except.ok ()) =
      MainOutcome.completed ∧
    mainRun ["bulkmt", "3"] (fun _ => Except.error "boom") =
      MainOutcome.fatal "boom" := by
  refine ⟨?_, ?_, ?_, ?_, ?_⟩
  · exact c8_cli.1 ["bulkmt"] _ (by decide)
  · exact c8_cli.2.1 "bulkmt" "abc" [] _ (by decide)
  · exact c8_cli.2.1 "bulkmt" "0" [] _ (by decide)
  · exact c8_cli.2.2.1 "bulkmt" "3" [] _ (by decide) rfl
  · exact c8_cli.2.2.2.1 "bulkmt" "3" [] _ "boom" (by decide) rfl

/-- C9 counterexample: in the schedule where the worker is mid-loop
rather than blocked in the wait when Stop lands, a batch enqueued
strictly before the Stop event (the "b" batch, enqueued one event before
stopEv) is still in the queue when the worker's while-check observes
mDone and exits, so it is never processed: the claim that every batch
enqueued strictly before stop is processed before the worker exits is
false of the code. -/
theorem c9_counterexample :
    drun dinit lostBatchSchedule =
      { queue := [⟨[⟨"b", 1⟩], 1⟩], done := true,
        processed := [⟨[⟨"a", 0⟩], 0⟩], pc := WorkerPC.exited } ∧
    ⟨[⟨"b", 1⟩], 1⟩ ∉ (drun dinit lostBatchSchedule).processed := by
  constructor
  · decide
  · decide

/-- C9 (amended): dispatch after stop is a silent no-op (the state is
unchanged and no error is raised); and when the worker is blocked in its
condition wait at the moment mDone is already set, its wake-up drains
the entire queue in FIFO order into the sink and the following
while-check exits the worker; but a batch enqueued while the worker is
between wait periods may be lost, as the counterexample schedule shows. -/
theorem c9_stop_semantics :
    (∀ (s : DispState) (b : CommandBatch), s.done = true →
       dstep s (DEvent.enq b) = s) ∧
    (∀ s : DispState, s.pc = WorkerPC.waiting → s.done = true →
       (dstep s DEvent.wake).processed = s.processed ++ s.queue ∧
       (dstep s DEvent.wake).queue = [] ∧
       (dstep (dstep s DEvent.wake) DEvent.check).pc = WorkerPC.exited) := by
  constructor
  · intro s b h
    simp [dstep, h]
  · intro s hpc hdone
    refine ⟨?_, ?_, ?_⟩ <;> simp [dstep, hpc, hdone]

/-- C9 witness: the amended theorem at a stopped dispatcher receiving a
late batch and at a waiting worker with one queued batch at stop time. -/
theorem c9_witness :
    dstep { queue := [], done := true, processed := [],
            pc := WorkerPC.exited } (DEvent.enq ⟨[], 0⟩) =
      { queue := [], done := true, processed := [], pc := WorkerPC.exited } ∧
    (dstep { queue := [⟨[], 7⟩], done := true, processed := [],
             pc := WorkerPC.waiting } DEvent.wake).processed = [⟨[], 7⟩] ∧
    (dstep (dstep { queue := [⟨[], 7⟩], done := true, processed := [],
                    pc := WorkerPC.waiting } DEvent.wake)
        DEvent.check).pc = WorkerPC.exited := by
  refine ⟨?_, ?_, ?_⟩
  · exact c9_stop_semantics.1 (DispState.mk [] true [] WorkerPC.exited) ⟨[], 0⟩ rfl
  · exact ((c9_stop_semantics.2 (DispState.mk [⟨[], 7⟩] true [] WorkerPC.waiting) rfl rfl).1).trans (by decide)
  · exact (c9_stop_semantics.2 (DispState.mk [⟨[], 7⟩] true [] WorkerPC.waiting) rfl rfl).2.2

/-- C10: the argument "-5" passes the CLI validation (atoi yields -5,
which is not 0, the only rejected value besides a missing argument) and
the pipeline runs; the int is converted to size_t modulo 2 to the 64,
giving bulkSize 2 to the 64 minus 5; and for every input shorter than
that threshold the size test of ProcessCommand never fires, so every
dispatched batch is triggered by a block boundary or by stop, never by
size. -/
theorem c10_negative_bulk :
    atoi "-5" = -5 ∧
    (∀ run : Int → Except String Unit, run (-5) = Except.ok () →
       mainRun ["bulkmt", "-5"] run = MainOutcome.completed) ∧
    intToSizeT (-5) = 2 ^ 64 - 5 ∧
    (∀ ls : List String, ls.length < 2 ^ 64 - 5 →
       ∀ tb ∈ (consoleStop (runLines (intToSizeT (-5)) ls)).dispatched,
         tb.1 = Trigger.startT ∨ tb.1 = Trigger.finishT ∨
           tb.1 = Trigger.stopT) := by
  have hconv : intToSizeT (-5) = 2 ^ 64 - 5 := by decide
  refine ⟨by decide, ?_, hconv, ?_⟩
  · intro run hrun
    have h5 : atoi "-5" = -5 := by decide
    simp [mainRun, h5, hrun]
  · intro ls h tb htb
    have hrun : ∀ tb ∈ (runLines (intToSizeT (-5)) ls).dispatched,
        tb.1 ≠ Trigger.sizeT := by
      apply runFrom_noSizeT ls (initState (intToSizeT (-5))) 0
      · simp [initState, hconv]
        omega
      · simp [initState]
    rcases consoleStop_mem (runLines (intToSizeT (-5)) ls) tb htb with hmem | hstop
    · have hne := hrun tb hmem
      rcases tb with ⟨t, b⟩
      cases t
      · exact absurd rfl hne
      · exact Or.inl rfl
      · exact Or.inr (Or.inl rfl)
      · exact Or.inr (Or.inr rfl)
    · exact Or.inr (Or.inr hstop)

/-- C10 witness: a two-line input under the huge threshold, checked to
satisfy the hypothesis, with the triggers of the resulting dispatched
batches all non-size. -/
theorem c10_witness :
    (2 : Nat) < 2 ^ 64 - 5 ∧
    (∀ tb ∈ (consoleStop (runLines (intToSizeT (-5)) ["a", "b"])).dispatched,
       tb.1 = Trigger.startT ∨ tb.1 = Trigger.finishT ∨
         tb.1 = Trigger.stopT) := by
  refine ⟨by norm_num, ?_⟩
  exact c10_negative_bulk.2.2.2 ["a", "b"] (by norm_num)
